import Mathlib

/-!
Shallow embedding of the CSF-mask utilities and the preprocessing CLI entry
point of the intensity-normalization repository
(intensity_normalization/utilities/csf.py and
intensity_normalization/exec/preprocess.py), together with theorems settling
the specification claims about them.

Modelling conventions:
* a voxel array (numpy array / ANTs image buffer) is a function `V → ℚ` over
  an abstract voxel index type `V`; the voxel grid is enumerated by a list;
* file paths are Lean strings; Python's `sorted` on strings is lexicographic
  comparison of code points, embedded as `lexLe` on the character lists;
* the external segmentation call (`ants` / Atropos k-means) is delegated
  work: its result is passed in as an abstract `SegResult`, exactly as the
  source treats it as a black box;
* filesystem reads and log emissions are recorded as an explicit event
  trace, so that ordering claims ("before reading any file", progress logs)
  are statable;
* Python exceptions are an explicit error type returned through `Except`
  (`NormalizationError` from the prob validation, and the `TypeError` that
  `functools.reduce` raises on an empty sequence without initializer).
-/

/-- Lexicographic (code-point) comparison of character lists: the order
Python's `sorted` uses on path strings in `sorted(glob(...))`. -/
def lexLe : List Char → List Char → Bool
  | [], _ => true
  | _ :: _, [] => false
  | a :: as, b :: bs => if a < b then true else if b < a then false else lexLe as bs

/-- Path order used by `sorted` in csf.py lines 75-76: lexicographic on the
characters of the path. -/
def pathLe (a b : String) : Prop := lexLe a.toList b.toList = true

instance : DecidableRel pathLe := fun a b => by
  unfold pathLe; infer_instance

/-- Substring test: does the pattern occur contiguously in the list? -/
def containsSub (pat : List Char) : List Char → Bool
  | [] => pat.isEmpty
  | c :: rest => List.isPrefixOf pat (c :: rest) || containsSub pat rest

/-- Embedding of the glob pattern match `*.nii*` of csf.py line 75: a file
name matches iff it contains ".nii" as a substring. -/
def matchesNii (s : String) : Bool := containsSub ".nii".toList s.toList

/-- Embedding of `sorted(glob(os.path.join(dir, '*.nii*')))` (csf.py lines
75-76): keep the directory entries matching `*.nii*` and sort them in
lexicographic path order (Python's sorted is a stable comparison sort). -/
def sortedGlob (files : List String) : List String :=
  List.insertionSort pathLe (files.filter matchesNii)

/-- Result of the external `img.kmeans_segmentation(3, kmask=brain_mask,
mrf=mrf)` call (csf.py line 50): the list of per-class membership
probability images, `res['probabilityimages']`. -/
structure SegResult (V : Type) where
  probabilityimages : List (V → ℚ)

/-- Embedding of `np.mean(img.numpy()[prob_img.numpy() > 0.5])` (csf.py
line 51): the mean intensity of the image over the voxels whose class
membership probability exceeds 0.5. (On an empty selection the Lean
division by zero yields 0 where numpy yields NaN; no claim depends on the
empty-selection value.) -/
def selMean {V : Type} (img : V → ℚ) (vox : List V) (p : V → ℚ) : ℚ :=
  let sel := vox.filter (fun v => decide ((1 : ℚ) / 2 < p v))
  (sel.map img).sum / (sel.length : ℚ)

/-- Embedding of the list comprehension building `avg_intensity` (csf.py
line 51): one selected-voxel mean per probability image. -/
def avg_intensity {V : Type} (img : V → ℚ) (vox : List V) (probimgs : List (V → ℚ)) : List ℚ :=
  probimgs.map (selMean img vox)

/-- Helper for `np.argmin`: scan the tail keeping the first index of the
least value seen so far. -/
def npArgminAux : List ℚ → ℚ → Nat → Nat → Nat
  | [], _, _, best => best
  | x :: xs, bv, i, best =>
      if x < bv then npArgminAux xs x (i + 1) i else npArgminAux xs bv (i + 1) best

/-- Embedding of `np.argmin(avg_intensity)` (csf.py line 52): index of the
first occurrence of the minimum. -/
def npArgmin : List ℚ → Nat
  | [] => 0
  | x :: xs => npArgminAux xs x 1 0

/-- All-zero voxel array (out-of-range default for list indexing; the source
always indexes within the 3 probability images). -/
def zeroMask (V : Type) : V → ℚ := fun _ => 0

/-- Embedding of `csf_mask` (csf.py lines 28-56) after the delegated
segmentation call: compute the selected-voxel mean intensity of each class,
take the class of least mean (`np.argmin`) as CSF, and either return its raw
membership image (`return_prob=True`) or threshold it at `csf_thresh`
(`(csf > csf_thresh).astype(np.float32)`). -/
def csf_mask {V : Type} (img : V → ℚ) (vox : List V) (seg : SegResult V)
    (csf_thresh : ℚ) (return_prob : Bool) : V → ℚ :=
  let avg := avg_intensity img vox seg.probabilityimages
  let csf := seg.probabilityimages.getD (npArgmin avg) (zeroMask V)
  if return_prob then csf else fun v => if csf_thresh < csf v then 1 else 0

/-- The two in-memory image representations accepted by `csf_mask`:
`nib` is a nibabel `Nifti1Image` (it has a `get_data` attribute), `ants` is
the native ANTs image (it does not). -/
inductive ImgRep (N A : Type) where
  | nib : N → ImgRep N A
  | ants : A → ImgRep N A

/-- Embedding of the `hasattr(x, 'get_data')` capability probe of csf.py
line 47: true exactly for the nibabel representation. -/
def hasGetData {N A : Type} : ImgRep N A → Bool
  | ImgRep.nib _ => true
  | ImgRep.ants _ => false

/-- Embedding of `ants.from_nibabel` applied to a representation (csf.py
lines 48-49); on an already-native image it is the identity. -/
def toAntsImage {N A : Type} (from_nibabel : N → A) : ImgRep N A → ImgRep N A
  | ImgRep.nib d => ImgRep.ants (from_nibabel d)
  | ImgRep.ants d => ImgRep.ants d

/-- Embedding of the conversion step of `csf_mask` (csf.py lines 47-49):
if both the image and the brain mask have `get_data` (i.e. both are nibabel
images) convert both with `ants.from_nibabel`, otherwise leave both as
given; the segmentation call is made on the result. -/
def convertForSeg {N A : Type} (from_nibabel : N → A) (img brain_mask : ImgRep N A) :
    ImgRep N A × ImgRep N A :=
  if hasGetData img && hasGetData brain_mask then
    (toAntsImage from_nibabel img, toAntsImage from_nibabel brain_mask)
  else (img, brain_mask)

/-- Is the representation the native ANTs one required by
`kmeans_segmentation`? -/
def isAntsRep {N A : Type} : ImgRep N A → Bool
  | ImgRep.nib _ => false
  | ImgRep.ants _ => true

/-- Observable side effects of `csf_mask_intersection`: reading an image
file (`ants.image_read(img)`), reading a mask file
(`ants.image_read(mask)`), and the progress log line
`'Creating CSF mask for image {} ({:d}/{:d})'` recording the image path,
the 1-based position `i+1`, and the total `len(data)`. -/
inductive Event where
  | readImage : String → Event
  | readMask : String → Event
  | logProgress : String → Nat → Nat → Event
deriving DecidableEq

/-- Python exceptions surfaced by `csf_mask_intersection`:
`NormalizationError` from the prob validation (csf.py lines 73-74), and the
`TypeError` that `reduce(add, [])` raises (csf.py line 84)
when there is no pair to process. -/
inductive CsfErr where
  | normalization : String → CsfErr
  | typeErrorEmptyReduce : CsfErr
deriving DecidableEq

/-- The brain-mask argument of one loop iteration: either a path in the mask
directory (`isinstance(mask, str)`) or an in-memory mask (possibly absent),
as produced by csf.py line 76. -/
abbrev MaskArg (V : Type) := String ⊕ Option (V → ℚ)

/-- The `masks` parameter of `csf_mask_intersection`: either a directory
listing (the `isinstance(masks, str)` branch) or a single in-memory mask /
None shared by all images. -/
inductive MaskSpec (V : Type) where
  | dirPath : List String → MaskSpec V
  | mem : Option (V → ℚ) → MaskSpec V

/-- Embedding of csf.py line 76:
`masks = sorted(glob(os.path.join(masks, '*.nii*'))) if isinstance(masks, str)
else [masks] * len(data)`. -/
def masksList {V : Type} (masks : MaskSpec V) (dataLen : Nat) : List (MaskArg V) :=
  match masks with
  | MaskSpec.dirPath files => (sortedGlob files).map Sum.inl
  | MaskSpec.mem m => List.replicate dataLen (Sum.inr m)

/-- One iteration's `csf_mask(imgn, maskn)` call (csf.py line 83) with the
default arguments `csf_thresh=0.9`, `return_prob=False`; `imgOf` gives the
voxel data of `ants.image_read(img)` and `segOf` the delegated segmentation
result for that image/mask pair. -/
def pairMask {V : Type} (imgOf : String → V → ℚ) (segOf : String → MaskArg V → SegResult V)
    (vox : List V) (p : String × MaskArg V) : V → ℚ :=
  csf_mask (imgOf p.1) vox (segOf p.1 p.2) ((9 : ℚ) / 10) false

/-- Embedding of the loop of csf.py lines 79-83:
`for i, (img, mask) in enumerate(zip(data, masks))`, emitting per iteration
the progress log (position `i+1` of `total`), the image-file read, the
mask-file read when the mask is a path, and accumulating the `csf` list. -/
def cohortLoop {V : Type} (imgOf : String → V → ℚ) (segOf : String → MaskArg V → SegResult V)
    (vox : List V) (total : Nat) : Nat → List (String × MaskArg V) → List Event × List (V → ℚ)
  | _, [] => ([], [])
  | i, p :: ps =>
      let here := [Event.logProgress p.1 (i + 1) total, Event.readImage p.1] ++
        (match p.2 with
         | Sum.inl mp => [Event.readMask mp]
         | Sum.inr _ => [])
      let rest := cohortLoop imgOf segOf vox total (i + 1) ps
      (here ++ rest.1, pairMask imgOf segOf vox p :: rest.2)

/-- Pointwise voxel-array addition, `operator.add` on numpy arrays. -/
def arrAdd {V : Type} (a b : V → ℚ) : V → ℚ := fun v => a v + b v

/-- Embedding of `reduce(add, csf)` (csf.py line 84): left fold of `add`
starting from the first element; on an empty list `reduce` raises
`TypeError` because no initializer is given. -/
def reduceAdd {V : Type} : List (V → ℚ) → Except CsfErr (V → ℚ)
  | [] => Except.error CsfErr.typeErrorEmptyReduce
  | c :: cs => Except.ok (cs.foldl arrAdd c)

/-- Embedding of `csf_mask_intersection` (csf.py lines 59-87): validate
`prob`, glob and sort the image directory, build the mask list, loop over
the zipped pairs computing per-image CSF masks, reduce them with `add`, and
return the binary mask that is 1 exactly where
`csf_sum >= np.floor(len(data) * prob)`
(`intersection = np.zeros(...); intersection[csf_sum >= ...] = 1`).
The first component is the trace of file reads and progress logs. -/
def csf_mask_intersection {V : Type} (imgOf : String → V → ℚ)
    (segOf : String → MaskArg V → SegResult V) (vox : List V)
    (img_dir : List String) (masks : MaskSpec V) (prob : ℚ) :
    List Event × Except CsfErr (V → ℚ) :=
  if ¬ (0 ≤ prob ∧ prob ≤ 1) then
    ([], Except.error (CsfErr.normalization "prob must be between 0 and 1"))
  else
    let data := sortedGlob img_dir
    let masksL := masksList masks data.length
    let run := cohortLoop imgOf segOf vox data.length 0 (data.zip masksL)
    match reduceAdd run.2 with
    | Except.error e => (run.1, Except.error e)
    | Except.ok csf_sum =>
        (run.1, Except.ok (fun v =>
          if (Int.floor ((data.length : ℚ) * prob) : ℚ) ≤ csf_sum v then 1 else 0))

/-- Image paths read from disk, in order, in an event trace. -/
def imagesRead (evs : List Event) : List String :=
  evs.filterMap (fun e => match e with
    | Event.readImage p => some p
    | _ => none)

/-- Progress log lines (image path, 1-based position, reported total), in
order, in an event trace. -/
def loggedEntries (evs : List Event) : List (String × Nat × Nat) :=
  evs.filterMap (fun e => match e with
    | Event.logProgress b i t => some (b, i, t)
    | _ => none)

/-- Reported totals of the progress log lines in an event trace. -/
def loggedTotals (evs : List Event) : List Nat :=
  evs.filterMap (fun e => match e with
    | Event.logProgress _ _ t => some t
    | _ => none)

/-- Value of a successful intersection result at a voxel (0 on error). -/
def okOutput {V : Type} (r : List Event × Except CsfErr (V → ℚ)) (v : V) : ℚ :=
  match r.2 with
  | Except.ok f => f v
  | Except.error _ => 0

namespace Preprocess

/-- Embedding of `main` of exec/preprocess.py (lines 49-64): run the
delegated `preprocess` call; on normal completion return exit code 0, on an
exception log it (`logger.exception(e)`, which records the traceback) and
return exit code 1. The result is the list of logged exceptions together
with the exit code. -/
def main {E : Type} (preprocessRun : Except E Unit) : List E × Nat :=
  match preprocessRun with
  | Except.ok _ => ([], 0)
  | Except.error e => ([e], 1)

end Preprocess

/-- Expected progress-log lines for a list of processed image paths,
starting at 0-based position i: each path is logged with its 1-based
position and the fixed reported total. -/
def expectedLogs (total : Nat) : Nat → List String → List (String × Nat × Nat)
  | _, [] => []
  | i, s :: ss => (s, i + 1, total) :: expectedLogs total (i + 1) ss

/-- Concrete one-voxel grid for witnesses and counterexamples. -/
def vox1 : List (Fin 1) := [0]

/-- Concrete image reader whose images are identically zero. -/
def imgZero : String → Fin 1 → ℚ := fun _ _ => 0

/-- Concrete delegated segmentation whose three class-membership images are
identically zero. -/
def segZero : String → MaskArg (Fin 1) → SegResult (Fin 1) :=
  fun _ _ => ⟨[fun _ => 0, fun _ => 0, fun _ => 0]⟩

/-- Concrete three-voxel grid for the synthetic segmentation example. -/
def vox3 : List (Fin 3) := [0, 1, 2]

/-- Concrete image whose intensity at voxel v is v (class 0 darkest). -/
def imgLin : Fin 3 → ℚ := fun v => (v.val : ℚ)

/-- Concrete membership image of the class occupying exactly voxel k. -/
def indClass (k : Fin 3) : Fin 3 → ℚ := fun v => if v = k then 1 else 0

/-! ## Helper lemmas -/

theorem lexLe_total : ∀ (a b : List Char), lexLe a b = true ∨ lexLe b a = true
  | [], _ => Or.inl rfl
  | _ :: _, [] => Or.inr rfl
  | a :: as, b :: bs => by
      rcases lt_trichotomy a b with h | h | h
      · left; simp [lexLe, h]
      · subst h
        rcases lexLe_total as bs with ih | ih
        · left; simp [lexLe, lt_irrefl, ih]
        · right; simp [lexLe, lt_irrefl, ih]
      · right; simp [lexLe, h]

theorem lexLe_trans : ∀ {a b c : List Char},
    lexLe a b = true → lexLe b c = true → lexLe a c = true
  | [], _, _, _, _ => rfl
  | _ :: _, [], _, h, _ => by simp [lexLe] at h
  | _ :: _, _ :: _, [], _, h => by simp [lexLe] at h
  | a :: as, b :: bs, c :: cs, h1, h2 => by
      simp only [lexLe] at h1 h2 ⊢
      by_cases hab : a < b
      · by_cases hbc : b < c
        · simp [lt_trans hab hbc]
        · by_cases hcb : c < b
          · simp [hbc, hcb] at h2
          · have hbc2 : b = c := le_antisymm (not_lt.mp hcb) (not_lt.mp hbc)
            subst hbc2
            simp [hab]
      · by_cases hba : b < a
        · simp [hab, hba] at h1
        · have hab2 : a = b := le_antisymm (not_lt.mp hba) (not_lt.mp hab)
          subst hab2
          simp only [lt_irrefl, if_false] at h1
          by_cases hac : a < c
          · simp [hac]
          · by_cases hca : c < a
            · simp [hac, hca] at h2
            · have hac2 : a = c := le_antisymm (not_lt.mp hca) (not_lt.mp hac)
              subst hac2
              simp only [lt_irrefl, if_false] at h2 ⊢
              exact lexLe_trans h1 h2

theorem lexLe_antisymm : ∀ {a b : List Char},
    lexLe a b = true → lexLe b a = true → a = b
  | [], [], _, _ => rfl
  | [], _ :: _, _, h2 => by simp [lexLe] at h2
  | _ :: _, [], h1, _ => by simp [lexLe] at h1
  | a :: as, b :: bs, h1, h2 => by
      rcases lt_trichotomy a b with h | h | h
      · simp [lexLe, h, lt_asymm h] at h2
      · subst h
        simp only [lexLe, lt_irrefl, if_false] at h1 h2
        rw [lexLe_antisymm h1 h2]
      · simp [lexLe, h, lt_asymm h] at h1

instance : IsTotal String pathLe := ⟨fun a b => lexLe_total a.toList b.toList⟩

instance : IsTrans String pathLe := ⟨fun _ _ _ h1 h2 => lexLe_trans h1 h2⟩

theorem pathLe_antisymm {a b : String} (h1 : pathLe a b) (h2 : pathLe b a) : a = b :=
  String.ext (lexLe_antisymm h1 h2)

theorem sortedGlob_sorted (files : List String) :
    List.Sorted pathLe (sortedGlob files) :=
  List.sorted_insertionSort pathLe (files.filter matchesNii)

theorem sortedGlob_nodup {files : List String} (h : files.Nodup) :
    (sortedGlob files).Nodup :=
  (List.perm_insertionSort pathLe (files.filter matchesNii)).symm.nodup
    (List.Nodup.filter matchesNii h)

theorem sortedGlob_strict {files : List String} (h : files.Nodup) :
    (sortedGlob files).Pairwise (fun a b => pathLe a b ∧ a ≠ b) :=
  List.Pairwise.and (sortedGlob_sorted files) (sortedGlob_nodup h)

theorem map_fst_zip_take {α β : Type} :
    ∀ (l₁ : List α) (l₂ : List β),
      (l₁.zip l₂).map Prod.fst = l₁.take (min l₁.length l₂.length)
  | [], _ => by simp
  | _ :: _, [] => by simp
  | a :: as, b :: bs => by
      simp [List.zip_cons_cons, map_fst_zip_take as bs, Nat.succ_min_succ]

theorem cohortLoop_snd {V : Type} (imgOf : String → V → ℚ)
    (segOf : String → MaskArg V → SegResult V) (vox : List V) (total : Nat)
    (i : Nat) (ps : List (String × MaskArg V)) :
    (cohortLoop imgOf segOf vox total i ps).2 = ps.map (pairMask imgOf segOf vox) := by
  induction ps generalizing i with
  | nil => simp [cohortLoop]
  | cons p ps ih => simp [cohortLoop, ih]

theorem cohortLoop_imagesRead {V : Type} (imgOf : String → V → ℚ)
    (segOf : String → MaskArg V → SegResult V) (vox : List V) (total : Nat)
    (i : Nat) (ps : List (String × MaskArg V)) :
    imagesRead (cohortLoop imgOf segOf vox total i ps).1 = ps.map Prod.fst := by
  induction ps generalizing i with
  | nil => simp [cohortLoop, imagesRead]
  | cons p ps ih =>
      rcases p with ⟨img, marg⟩
      rcases marg with mp | mm <;>
        simp [cohortLoop, imagesRead, List.filterMap_append] at ih ⊢ <;>
        exact ih _

theorem cohortLoop_logged {V : Type} (imgOf : String → V → ℚ)
    (segOf : String → MaskArg V → SegResult V) (vox : List V) (total : Nat)
    (i : Nat) (ps : List (String × MaskArg V)) :
    loggedEntries (cohortLoop imgOf segOf vox total i ps).1 =
      expectedLogs total i (ps.map Prod.fst) := by
  induction ps generalizing i with
  | nil => simp [cohortLoop, loggedEntries, expectedLogs]
  | cons p ps ih =>
      rcases p with ⟨img, marg⟩
      rcases marg with mp | mm <;>
        simp [cohortLoop, loggedEntries, List.filterMap_append, expectedLogs] at ih ⊢ <;>
        exact ih _

theorem cohortLoop_totals {V : Type} (imgOf : String → V → ℚ)
    (segOf : String → MaskArg V → SegResult V) (vox : List V) (total : Nat)
    (i : Nat) (ps : List (String × MaskArg V)) :
    loggedTotals (cohortLoop imgOf segOf vox total i ps).1 =
      List.replicate ps.length total := by
  induction ps generalizing i with
  | nil => simp [cohortLoop, loggedTotals]
  | cons p ps ih =>
      rcases p with ⟨img, marg⟩
      rcases marg with mp | mm <;>
        simp [cohortLoop, loggedTotals, List.filterMap_append, List.replicate_succ] at ih ⊢ <;>
        exact ih _

theorem expectedLogs_eq_enumFrom (total : Nat) :
    ∀ (i : Nat) (ss : List String),
      expectedLogs total i ss = (List.enumFrom i ss).map (fun q => (q.2, q.1 + 1, total))
  | _, [] => rfl
  | i, s :: ss => by
      simp [expectedLogs, List.enumFrom_cons, expectedLogs_eq_enumFrom total (i + 1) ss]

theorem foldl_arrAdd_apply {V : Type} :
    ∀ (cs : List (V → ℚ)) (c : V → ℚ) (v : V),
      (cs.foldl arrAdd c) v = c v + (cs.map (fun m => m v)).sum
  | [], c, v => by simp
  | a :: as, c, v => by
      simp [List.foldl_cons, foldl_arrAdd_apply as (arrAdd c a) v, arrAdd, add_assoc]

theorem csf_mask_false_mem01 {V : Type} (img : V → ℚ) (vox : List V)
    (seg : SegResult V) (th : ℚ) (v : V) :
    csf_mask img vox seg th false v = 0 ∨ csf_mask img vox seg th false v = 1 := by
  simp only [csf_mask, Bool.false_eq_true, if_false]
  split
  · exact Or.inr rfl
  · exact Or.inl rfl

theorem binary_sum_le_length (l : List ℚ) (h : ∀ x ∈ l, x = 0 ∨ x = 1) :
    l.sum ≤ (l.length : ℚ) := by
  induction l with
  | nil => simp
  | cons x xs ih =>
      have hx := h x (by simp)
      have ihx := ih (fun y hy => h y (by simp [hy]))
      simp only [List.sum_cons, List.length_cons]
      push_cast
      rcases hx with h0 | h1 <;> [rw [h0]; rw [h1]] <;> linarith

theorem binary_length_le_sum_iff (l : List ℚ) (h : ∀ x ∈ l, x = 0 ∨ x = 1) :
    ((l.length : ℚ) ≤ l.sum ↔ ∀ x ∈ l, x = 1) := by
  induction l with
  | nil => simp
  | cons x xs ih =>
      have hx := h x (by simp)
      have hxs : ∀ y ∈ xs, y = 0 ∨ y = 1 := fun y hy => h y (by simp [hy])
      have ihx := ih hxs
      have hsum := binary_sum_le_length xs hxs
      simp only [List.sum_cons, List.length_cons, List.mem_cons]
      push_cast
      constructor
      · intro hle
        have hx1 : x = 1 := by
          rcases hx with h0 | h1
          · rw [h0] at hle; linarith
          · exact h1
        have hxs1 : (xs.length : ℚ) ≤ xs.sum := by rw [hx1] at hle; linarith
        intro y hy
        rcases hy with rfl | hy
        · exact hx1
        · exact (ihx.mp hxs1) y hy
      · intro hall
        have hx1 : x = 1 := hall x (Or.inl rfl)
        have hall2 : (xs.length : ℚ) ≤ xs.sum := ihx.mpr (fun y hy => hall y (Or.inr hy))
        rw [hx1]
        linarith

theorem reduceAdd_ne_norm {V : Type} (l : List (V → ℚ)) (msg : String) :
    reduceAdd l ≠ Except.error (CsfErr.normalization msg) := by
  cases l <;> simp [reduceAdd]

theorem csf_mask_intersection_ok {V : Type} (imgOf : String → V → ℚ)
    (segOf : String → MaskArg V → SegResult V) (vox : List V)
    (img_dir : List String) (masks : MaskSpec V) (prob : ℚ)
    (hp : 0 ≤ prob ∧ prob ≤ 1)
    (hk : 0 < min (sortedGlob img_dir).length
      (masksList masks (sortedGlob img_dir).length).length) :
    (csf_mask_intersection imgOf segOf vox img_dir masks prob).2 =
      Except.ok (fun v =>
        if (Int.floor (((sortedGlob img_dir).length : ℚ) * prob) : ℚ) ≤
            (((sortedGlob img_dir).zip (masksList masks (sortedGlob img_dir).length)).map
              (fun p => pairMask imgOf segOf vox p v)).sum
        then 1 else 0) := by
  unfold csf_mask_intersection
  rw [if_neg (not_not_intro hp)]
  simp only
  rw [cohortLoop_snd]
  obtain ⟨q, qs, hzip⟩ : ∃ q qs,
      (sortedGlob img_dir).zip (masksList masks (sortedGlob img_dir).length) = q :: qs := by
    cases hz : (sortedGlob img_dir).zip (masksList masks (sortedGlob img_dir).length) with
    | nil =>
        have := List.length_zip (sortedGlob img_dir)
          (masksList masks (sortedGlob img_dir).length)
        rw [hz] at this
        simp only [List.length_nil] at this
        omega
    | cons q qs => exact ⟨q, qs, rfl⟩
  rw [hzip]
  simp only [List.map_cons, reduceAdd]
  congr 1
  funext v
  rw [foldl_arrAdd_apply]
  simp only [List.map_map]
  rfl

theorem csf_mask_intersection_events {V : Type} (imgOf : String → V → ℚ)
    (segOf : String → MaskArg V → SegResult V) (vox : List V)
    (img_dir : List String) (masks : MaskSpec V) (prob : ℚ)
    (hp : 0 ≤ prob ∧ prob ≤ 1) :
    (csf_mask_intersection imgOf segOf vox img_dir masks prob).1 =
      (cohortLoop imgOf segOf vox (sortedGlob img_dir).length 0
        ((sortedGlob img_dir).zip (masksList masks (sortedGlob img_dir).length))).1 := by
  unfold csf_mask_intersection
  rw [if_neg (not_not_intro hp)]
  simp only
  split <;> rfl

theorem npArgmin_three (a0 a1 a2 : ℚ) :
    npArgmin [a0, a1, a2] =
      if a1 < a0 then (if a2 < a1 then 2 else 1) else (if a2 < a0 then 2 else 0) := by
  simp only [npArgmin, npArgminAux]

/-! ## Claim theorems -/

/-- C2: csf_mask_intersection raises NormalizationError for every prob
outside [0,1], immediately and before reading any image or mask file (the
event trace of the failing run is empty); for prob inside [0,1] no
NormalizationError is raised. -/
theorem csf_mask_intersection_prob_validation {V : Type} (imgOf : String → V → ℚ)
    (segOf : String → MaskArg V → SegResult V) (vox : List V)
    (img_dir : List String) (masks : MaskSpec V) (prob : ℚ) :
    (¬ (0 ≤ prob ∧ prob ≤ 1) →
      csf_mask_intersection imgOf segOf vox img_dir masks prob =
        ([], Except.error (CsfErr.normalization "prob must be between 0 and 1"))) ∧
    ((0 ≤ prob ∧ prob ≤ 1) → ∀ msg,
      (csf_mask_intersection imgOf segOf vox img_dir masks prob).2 ≠
        Except.error (CsfErr.normalization msg)) := by
  constructor
  · intro h
    unfold csf_mask_intersection
    rw [if_pos h]
  · intro hp msg
    unfold csf_mask_intersection
    rw [if_neg (not_not_intro hp)]
    simp only
    cases hr : reduceAdd (cohortLoop imgOf segOf vox (sortedGlob img_dir).length 0
        ((sortedGlob img_dir).zip (masksList masks (sortedGlob img_dir).length))).2 with
    | ok s => simp [hr]
    | error e =>
        simp only [hr]
        intro hc
        injection hc with hc
        rw [hc] at hr
        exact reduceAdd_ne_norm _ msg hr

/-- Witness for C2 at concrete inputs: prob = 2 yields the validation error
with an empty event trace; prob = 1 never yields a NormalizationError. -/
theorem csf_mask_intersection_prob_validation_witness :
    csf_mask_intersection imgZero segZero vox1 ["a.nii"] (MaskSpec.mem none) 2 =
      ([], Except.error (CsfErr.normalization "prob must be between 0 and 1")) ∧
    (csf_mask_intersection imgZero segZero vox1 ["a.nii"] (MaskSpec.mem none) 1).2 ≠
      Except.error (CsfErr.normalization "prob must be between 0 and 1") :=
  ⟨(csf_mask_intersection_prob_validation imgZero segZero vox1 ["a.nii"]
      (MaskSpec.mem none) 2).1 (by norm_num),
   (csf_mask_intersection_prob_validation imgZero segZero vox1 ["a.nii"]
      (MaskSpec.mem none) 1).2 (by norm_num) "prob must be between 0 and 1"⟩

/-- C5: with return_prob = false every output voxel of csf_mask is 0 or 1
(membership thresholded at csf_thresh); with return_prob = true the output
is the raw membership image of the selected class, unthresholded. -/
theorem csf_mask_output_thresholded_or_raw {V : Type} (img : V → ℚ) (vox : List V)
    (seg : SegResult V) (csf_thresh : ℚ) :
    (∀ v, csf_mask img vox seg csf_thresh false v = 0 ∨
      csf_mask img vox seg csf_thresh false v = 1) ∧
    csf_mask img vox seg csf_thresh true =
      seg.probabilityimages.getD
        (npArgmin (avg_intensity img vox seg.probabilityimages)) (zeroMask V) := by
  refine ⟨fun v => csf_mask_false_mem01 img vox seg csf_thresh v, ?_⟩
  simp [csf_mask]

/-- C6: when the image and brain mask are presented in the same accepted
in-memory representation (both nibabel or both native ANTs), the conversion
step of csf_mask leaves both inputs in the native ANTs representation
required by the segmentation call. -/
theorem csf_mask_converts_inputs {N A : Type} (from_nibabel : N → A)
    (img brain_mask : ImgRep N A)
    (hsame : hasGetData img = hasGetData brain_mask) :
    isAntsRep (convertForSeg from_nibabel img brain_mask).1 = true ∧
    isAntsRep (convertForSeg from_nibabel img brain_mask).2 = true := by
  cases img <;> cases brain_mask <;>
    simp_all [hasGetData, convertForSeg, toAntsImage, isAntsRep]

/-- Witness for C6: two nibabel inputs are both converted to ANTs form. -/
theorem csf_mask_converts_inputs_witness :
    isAntsRep (convertForSeg (fun u : Unit => u) (ImgRep.nib ()) (ImgRep.nib ())).1 = true ∧
    isAntsRep (convertForSeg (fun u : Unit => u) (ImgRep.nib ()) (ImgRep.nib ())).2 = true :=
  csf_mask_converts_inputs (fun u => u) (ImgRep.nib ()) (ImgRep.nib ()) rfl

/-- C8: the preprocessing CLI main returns exit code 0 when the delegated
preprocess call completes, and on any exception logs it and returns exit
code 1; main is a total function, so no exception escapes it. -/
theorem preprocess_main_exit_codes {E : Type} (preprocessRun : Except E Unit) :
    (∀ u, preprocessRun = Except.ok u → Preprocess.main preprocessRun = ([], 0)) ∧
    (∀ e, preprocessRun = Except.error e → Preprocess.main preprocessRun = ([e], 1)) := by
  constructor <;> rintro x rfl <;> rfl

/-- Witness for C8 on a completing and a throwing preprocess call. -/
theorem preprocess_main_exit_codes_witness :
    Preprocess.main (Except.ok () : Except Unit Unit) = ([], 0) ∧
    Preprocess.main (Except.error () : Except Unit Unit) = ([()], 1) :=
  ⟨(preprocess_main_exit_codes (Except.ok ())).1 () rfl,
   (preprocess_main_exit_codes (Except.error ())).2 () rfl⟩

/-- C10: when the image directory has no file matching the *.nii* pattern,
csf_mask_intersection does not return a mask even though the prob validation
passed: the reduction of the empty per-image mask list raises (TypeError
from reduce without initializer). -/
theorem csf_mask_intersection_empty_glob_error {V : Type} (imgOf : String → V → ℚ)
    (segOf : String → MaskArg V → SegResult V) (vox : List V)
    (img_dir : List String) (masks : MaskSpec V) (prob : ℚ)
    (hp : 0 ≤ prob ∧ prob ≤ 1) (h0 : sortedGlob img_dir = []) :
    (csf_mask_intersection imgOf segOf vox img_dir masks prob).2 =
      Except.error CsfErr.typeErrorEmptyReduce := by
  unfold csf_mask_intersection
  rw [if_neg (not_not_intro hp)]
  simp only
  rw [h0]
  simp [cohortLoop, reduceAdd]

/-- Witness for C10: a directory whose only entry does not match *.nii*. -/
theorem csf_mask_intersection_empty_glob_error_witness :
    (csf_mask_intersection imgZero segZero vox1 ["notes.txt"]
        (MaskSpec.mem none) ((1 : ℚ) / 2)).2 =
      Except.error CsfErr.typeErrorEmptyReduce :=
  csf_mask_intersection_empty_glob_error imgZero segZero vox1 ["notes.txt"]
    (MaskSpec.mem none) ((1 : ℚ) / 2) (by norm_num) (by rfl)

/-- C1: for a nonempty cohort with a mask for every image and prob in [0,1],
the intersection succeeds and a voxel of the output is 1 iff the voxel-wise
sum of the N per-image binary CSF masks is at least floor(N * prob); in
particular at prob = 1 a voxel is 1 iff all N per-image masks are 1 there. -/
theorem csf_mask_intersection_threshold {V : Type} (imgOf : String → V → ℚ)
    (segOf : String → MaskArg V → SegResult V) (vox : List V)
    (img_dir : List String) (masks : MaskSpec V) (prob : ℚ)
    (hp : 0 ≤ prob ∧ prob ≤ 1) (hne : sortedGlob img_dir ≠ [])
    (hm : (sortedGlob img_dir).length ≤
      (masksList masks (sortedGlob img_dir).length).length) :
    (csf_mask_intersection imgOf segOf vox img_dir masks prob).2 =
      Except.ok (fun v =>
        okOutput (csf_mask_intersection imgOf segOf vox img_dir masks prob) v) ∧
    (∀ v, okOutput (csf_mask_intersection imgOf segOf vox img_dir masks prob) v = 1 ↔
      (Int.floor (((sortedGlob img_dir).length : ℚ) * prob) : ℚ) ≤
        (((sortedGlob img_dir).zip (masksList masks (sortedGlob img_dir).length)).map
          (fun p => pairMask imgOf segOf vox p v)).sum) ∧
    (prob = 1 → ∀ v,
      okOutput (csf_mask_intersection imgOf segOf vox img_dir masks prob) v = 1 ↔
      ∀ p ∈ (sortedGlob img_dir).zip (masksList masks (sortedGlob img_dir).length),
        pairMask imgOf segOf vox p v = 1) := by
  have hk : 0 < min (sortedGlob img_dir).length
      (masksList masks (sortedGlob img_dir).length).length := by
    have h1 : 0 < (sortedGlob img_dir).length := List.length_pos.mpr hne
    omega
  have hok := csf_mask_intersection_ok imgOf segOf vox img_dir masks prob hp hk
  have hval : ∀ v, okOutput (csf_mask_intersection imgOf segOf vox img_dir masks prob) v =
      if (Int.floor (((sortedGlob img_dir).length : ℚ) * prob) : ℚ) ≤
          (((sortedGlob img_dir).zip (masksList masks (sortedGlob img_dir).length)).map
            (fun p => pairMask imgOf segOf vox p v)).sum
      then 1 else 0 := by
    intro v
    rw [okOutput, hok]
  have hiff : ∀ v, okOutput (csf_mask_intersection imgOf segOf vox img_dir masks prob) v = 1 ↔
      (Int.floor (((sortedGlob img_dir).length : ℚ) * prob) : ℚ) ≤
        (((sortedGlob img_dir).zip (masksList masks (sortedGlob img_dir).length)).map
          (fun p => pairMask imgOf segOf vox p v)).sum := by
    intro v
    rw [hval v]
    split
    · simp only [eq_self_iff_true, true_iff]
      assumption
    · constructor
      · intro h01
        exact absurd h01 zero_ne_one
      · intro hc
        exact absurd hc (by assumption)
  refine ⟨?_, hiff, ?_⟩
  · rw [hok]
    congr 1
    funext v
    rw [hval v]
  · intro hprob v
    subst hprob
    rw [hiff v]
    have hbin : ∀ x ∈ ((sortedGlob img_dir).zip
        (masksList masks (sortedGlob img_dir).length)).map
          (fun p => pairMask imgOf segOf vox p v), x = 0 ∨ x = 1 := by
      rw [List.forall_mem_map]
      intro p _
      exact csf_mask_false_mem01 (imgOf p.1) vox (segOf p.1 p.2) ((9 : ℚ) / 10) v
    have hfloor : (Int.floor (((sortedGlob img_dir).length : ℚ) * 1) : ℚ) =
        ((sortedGlob img_dir).length : ℚ) := by
      rw [mul_one]
      simp
    have hlen : (((sortedGlob img_dir).zip
        (masksList masks (sortedGlob img_dir).length)).map
          (fun p => pairMask imgOf segOf vox p v)).length =
        (sortedGlob img_dir).length := by
      rw [List.length_map, List.length_zip]
      omega
    have key := binary_length_le_sum_iff _ hbin
    rw [hlen] at key
    rw [hfloor, key, List.forall_mem_map]

/-- Witness for C1: one image, shared in-memory mask, default prob = 1. -/
theorem csf_mask_intersection_threshold_witness :
    (0 : ℚ) ≤ 1 ∧ (1 : ℚ) ≤ 1 ∧
    (okOutput (csf_mask_intersection imgZero segZero vox1 ["a.nii"]
        (MaskSpec.mem none) 1) 0 = 1 ↔
      (Int.floor (((sortedGlob ["a.nii"]).length : ℚ) * 1) : ℚ) ≤
        (((sortedGlob ["a.nii"]).zip (masksList
            (MaskSpec.mem (none : Option (Fin 1 → ℚ))) (sortedGlob ["a.nii"]).length)).map
          (fun p => pairMask imgZero segZero vox1 p 0)).sum) :=
  ⟨by norm_num, by norm_num,
   (csf_mask_intersection_threshold imgZero segZero vox1 ["a.nii"]
      (MaskSpec.mem none) 1 (by norm_num) (by decide) (by decide)).2.1 0⟩

/-- Counterexample to C3 as stated: at prob = 0 with a one-image cohort
whose per-image CSF mask is 0 at the voxel, the output is nevertheless 1
(the threshold floor(1 * 0) = 0 is met by a zero vote count), refuting
"output is 1 iff at least one per-image mask is 1". -/
theorem csf_mask_intersection_prob_zero_cex :
    okOutput (csf_mask_intersection imgZero segZero vox1 ["a.nii"]
        (MaskSpec.mem none) 0) 0 = 1 ∧
    (sortedGlob ["a.nii"]).zip (masksList
        (MaskSpec.mem (none : Option (Fin 1 → ℚ))) (sortedGlob ["a.nii"]).length) =
      [("a.nii", Sum.inr none)] ∧
    pairMask imgZero segZero vox1 ("a.nii", Sum.inr none) 0 = 0 := by
  have hpm : pairMask imgZero segZero vox1 ("a.nii", Sum.inr none) 0 = 0 := by
    norm_num [pairMask, csf_mask, avg_intensity, selMean, vox1, imgZero, segZero,
      npArgmin, npArgminAux, zeroMask, List.filter]
  refine ⟨?_, by rfl, hpm⟩
  have hok := csf_mask_intersection_ok imgZero segZero vox1 ["a.nii"]
    (MaskSpec.mem none) 0 (by norm_num) (by decide)
  rw [okOutput, hok]
  simp only
  rw [if_pos]
  show (Int.floor (((sortedGlob ["a.nii"]).length : ℚ) * 0) : ℚ) ≤ _
  rw [mul_zero, Int.floor_zero]
  have : ((sortedGlob ["a.nii"]).zip (masksList
      (MaskSpec.mem (none : Option (Fin 1 → ℚ))) (sortedGlob ["a.nii"]).length)) =
      [("a.nii", Sum.inr none)] := by rfl
  rw [this]
  simp [hpm]

/-- C3 amended: for prob = 0 on a nonempty cohort with a mask for every
image, the intersection succeeds and equals 1 at every voxel — including
voxels where no per-image mask is 1, since the vote threshold
floor(N * 0) = 0 is trivially met. -/
theorem csf_mask_intersection_prob_zero_all_ones {V : Type} (imgOf : String → V → ℚ)
    (segOf : String → MaskArg V → SegResult V) (vox : List V)
    (img_dir : List String) (masks : MaskSpec V)
    (hne : sortedGlob img_dir ≠ [])
    (hm : (sortedGlob img_dir).length ≤
      (masksList masks (sortedGlob img_dir).length).length) :
    ∀ v, okOutput (csf_mask_intersection imgOf segOf vox img_dir masks 0) v = 1 := by
  have hk : 0 < min (sortedGlob img_dir).length
      (masksList masks (sortedGlob img_dir).length).length := by
    have h1 : 0 < (sortedGlob img_dir).length := List.length_pos.mpr hne
    omega
  have hok := csf_mask_intersection_ok imgOf segOf vox img_dir masks 0 (by norm_num) hk
  intro v
  rw [okOutput, hok]
  simp only
  rw [if_pos]
  rw [mul_zero, Int.floor_zero]
  show (0 : ℚ) ≤ _
  apply List.sum_nonneg
  rw [List.forall_mem_map]
  intro p _
  rcases csf_mask_false_mem01 (imgOf p.1) vox (segOf p.1 p.2) ((9 : ℚ) / 10) v with h | h
  · simp only [pairMask]
    rw [h]
  · simp only [pairMask]
    rw [h]
    norm_num

/-- Witness for the amended C3 on a concrete one-image cohort. -/
theorem csf_mask_intersection_prob_zero_all_ones_witness :
    okOutput (csf_mask_intersection imgZero segZero vox1 ["b.nii"]
        (MaskSpec.mem none) 0) 0 = 1 :=
  csf_mask_intersection_prob_zero_all_ones imgZero segZero vox1 ["b.nii"]
    (MaskSpec.mem none) (by decide) (by decide) 0

/-- C4: csf_mask computes for each of the 3 segmentation classes the mean
image intensity over the voxels whose membership probability exceeds 0.5
(this is what selMean / avg_intensity embed), designates as CSF the class
whose mean is lowest, and returns that class's membership map, thresholded
unless return_prob is set. -/
theorem csf_mask_selects_lowest_mean_class {V : Type} (img : V → ℚ) (vox : List V)
    (p0 p1 p2 : V → ℚ) (csf_thresh : ℚ) (return_prob : Bool) (i : Fin 3)
    (hmin : ∀ j : Fin 3, j ≠ i →
      selMean img vox ([p0, p1, p2].get i) < selMean img vox ([p0, p1, p2].get j)) :
    npArgmin (avg_intensity img vox [p0, p1, p2]) = (i : Nat) ∧
    csf_mask img vox ⟨[p0, p1, p2]⟩ csf_thresh return_prob =
      (if return_prob then [p0, p1, p2].get i
       else fun v => if csf_thresh < [p0, p1, p2].get i v then 1 else 0) := by
  have havg : avg_intensity img vox [p0, p1, p2] =
      [selMean img vox p0, selMean img vox p1, selMean img vox p2] := by
    simp [avg_intensity]
  fin_cases i
  · have h1 : selMean img vox p0 < selMean img vox p1 := hmin 1 (by decide)
    have h2 : selMean img vox p0 < selMean img vox p2 := hmin 2 (by decide)
    have harg : npArgmin (avg_intensity img vox [p0, p1, p2]) = 0 := by
      rw [havg, npArgmin_three, if_neg (lt_asymm h1), if_neg (lt_asymm h2)]
    refine ⟨harg, ?_⟩
    simp only [csf_mask, harg]
    cases return_prob <;> rfl
  · have h0 : selMean img vox p1 < selMean img vox p0 := hmin 0 (by decide)
    have h2 : selMean img vox p1 < selMean img vox p2 := hmin 2 (by decide)
    have harg : npArgmin (avg_intensity img vox [p0, p1, p2]) = 1 := by
      rw [havg, npArgmin_three, if_pos h0, if_neg (lt_asymm h2)]
    refine ⟨harg, ?_⟩
    simp only [csf_mask, harg]
    cases return_prob <;> rfl
  · have h0 : selMean img vox p2 < selMean img vox p0 := hmin 0 (by decide)
    have h1 : selMean img vox p2 < selMean img vox p1 := hmin 1 (by decide)
    have harg : npArgmin (avg_intensity img vox [p0, p1, p2]) = 2 := by
      rw [havg, npArgmin_three]
      by_cases hc : selMean img vox p1 < selMean img vox p0
      · rw [if_pos hc, if_pos h1]
      · rw [if_neg hc, if_pos h0]
    refine ⟨harg, ?_⟩
    simp only [csf_mask, harg]
    cases return_prob <;> rfl

/-- Witness for C4: a synthetic 3-class segmentation where class 0 occupies
the darkest voxel; csf_mask selects class 0 and returns its membership. -/
theorem csf_mask_selects_lowest_mean_class_witness :
    npArgmin (avg_intensity imgLin vox3 [indClass 0, indClass 1, indClass 2]) =
      ((0 : Fin 3) : Nat) ∧
    csf_mask imgLin vox3 ⟨[indClass 0, indClass 1, indClass 2]⟩ ((9 : ℚ) / 10) true =
      (if true then [indClass 0, indClass 1, indClass 2].get (0 : Fin 3)
       else fun v => if (9 : ℚ) / 10 <
          [indClass 0, indClass 1, indClass 2].get (0 : Fin 3) v then 1 else 0) := by
  refine csf_mask_selects_lowest_mean_class imgLin vox3 (indClass 0) (indClass 1)
    (indClass 2) ((9 : ℚ) / 10) true 0 ?_
  intro j hj
  fin_cases j
  · exact absurd rfl hj
  · show selMean imgLin vox3 (indClass 0) < selMean imgLin vox3 (indClass 1)
    norm_num [selMean, vox3, imgLin, indClass, List.filter, Fin.ext_iff]
  · show selMean imgLin vox3 (indClass 0) < selMean imgLin vox3 (indClass 2)
    norm_num [selMean, vox3, imgLin, indClass, List.filter, Fin.ext_iff]

/-- Counterexample to C7 as stated: with 3 image files but only 2 mask
files, only 2 images are processed (2 image reads), yet both progress lines
report a total of 3 — so the logged total is not the number of images
processed. -/
theorem csf_mask_intersection_log_total_cex :
    loggedEntries (csf_mask_intersection imgZero segZero vox1
        ["b.nii", "a.nii", "c.nii"] (MaskSpec.dirPath ["m2.nii", "m1.nii"]) 1).1 =
      [("a.nii", 1, 3), ("b.nii", 2, 3)] ∧
    (imagesRead (csf_mask_intersection imgZero segZero vox1
        ["b.nii", "a.nii", "c.nii"] (MaskSpec.dirPath ["m2.nii", "m1.nii"]) 1).1).length = 2 ∧
    (3 : Nat) ≠ 2 := by
  have hev := csf_mask_intersection_events imgZero segZero vox1
    ["b.nii", "a.nii", "c.nii"] (MaskSpec.dirPath ["m2.nii", "m1.nii"]) 1 (by norm_num)
  rw [hev]
  refine ⟨by decide, by decide, by decide⟩

/-- C7 amended: the cohort is processed in strictly increasing lexicographic
path order; the j-th processed image (0-based j) is logged with 1-based
position j + 1 and with total equal to the number of *.nii* files found in
the image directory — which is the number of images processed when there
are at least as many masks as images, but not in general. -/
theorem csf_mask_intersection_order_and_logs {V : Type} (imgOf : String → V → ℚ)
    (segOf : String → MaskArg V → SegResult V) (vox : List V)
    (img_dir : List String) (masks : MaskSpec V) (prob : ℚ)
    (hp : 0 ≤ prob ∧ prob ≤ 1) (hnd : img_dir.Nodup) :
    (sortedGlob img_dir).Pairwise (fun a b => pathLe a b ∧ a ≠ b) ∧
    imagesRead (csf_mask_intersection imgOf segOf vox img_dir masks prob).1 =
      (sortedGlob img_dir).take (min (sortedGlob img_dir).length
        (masksList masks (sortedGlob img_dir).length).length) ∧
    loggedEntries (csf_mask_intersection imgOf segOf vox img_dir masks prob).1 =
      (List.enumFrom 0 ((sortedGlob img_dir).take (min (sortedGlob img_dir).length
          (masksList masks (sortedGlob img_dir).length).length))).map
        (fun q => (q.2, q.1 + 1, (sortedGlob img_dir).length)) := by
  have hev := csf_mask_intersection_events imgOf segOf vox img_dir masks prob hp
  refine ⟨sortedGlob_strict hnd, ?_, ?_⟩
  · rw [hev, cohortLoop_imagesRead, map_fst_zip_take]
  · rw [hev, cohortLoop_logged, map_fst_zip_take, expectedLogs_eq_enumFrom]

/-- Witness for the amended C7: three images with a shared in-memory mask
produce logs (1/3), (2/3), (3/3) in sorted path order. -/
theorem csf_mask_intersection_order_and_logs_witness :
    loggedEntries (csf_mask_intersection imgZero segZero vox1
        ["b.nii", "a.nii", "c.nii"] (MaskSpec.mem none) 1).1 =
      [("a.nii", 1, 3), ("b.nii", 2, 3), ("c.nii", 3, 3)] ∧
    imagesRead (csf_mask_intersection imgZero segZero vox1
        ["b.nii", "a.nii", "c.nii"] (MaskSpec.mem none) 1).1 =
      ["a.nii", "b.nii", "c.nii"] := by
  have h := csf_mask_intersection_order_and_logs imgZero segZero vox1
    ["b.nii", "a.nii", "c.nii"] (MaskSpec.mem none) 1 (by norm_num) (by decide)
  refine ⟨?_, ?_⟩
  · rw [h.2.2]
    decide
  · rw [h.2.1]
    decide

/-- Counterexample to C9 as stated: an image directory with one *.nii* file
and a mask directory with none (a different count) does raise an error —
the empty reduction — rather than silently succeeding. -/
theorem csf_mask_intersection_mismatch_empty_cex :
    (csf_mask_intersection imgZero segZero vox1 ["a.nii"]
        (MaskSpec.dirPath ["x.txt"]) 1).2 =
      Except.error CsfErr.typeErrorEmptyReduce := by
  unfold csf_mask_intersection
  rw [if_neg (not_not_intro (by norm_num))]
  rfl

/-- C9 amended: when the mask directory holds a different number of *.nii*
files than the image directory but at least one pair exists, no error is
raised: exactly the first min(n, m) sorted pairs are processed, while every
progress line still reports the full image count n as the total. -/
theorem csf_mask_intersection_mismatch {V : Type} (imgOf : String → V → ℚ)
    (segOf : String → MaskArg V → SegResult V) (vox : List V)
    (img_dir mask_dir : List String) (prob : ℚ)
    (hp : 0 ≤ prob ∧ prob ≤ 1)
    (hne : (sortedGlob mask_dir).length ≠ (sortedGlob img_dir).length)
    (hk : 0 < min (sortedGlob img_dir).length (sortedGlob mask_dir).length) :
    (csf_mask_intersection imgOf segOf vox img_dir (MaskSpec.dirPath mask_dir) prob).2 =
      Except.ok (fun v =>
        okOutput (csf_mask_intersection imgOf segOf vox img_dir
          (MaskSpec.dirPath mask_dir) prob) v) ∧
    (imagesRead (csf_mask_intersection imgOf segOf vox img_dir
        (MaskSpec.dirPath mask_dir) prob).1).length =
      min (sortedGlob img_dir).length (sortedGlob mask_dir).length ∧
    loggedTotals (csf_mask_intersection imgOf segOf vox img_dir
        (MaskSpec.dirPath mask_dir) prob).1 =
      List.replicate (min (sortedGlob img_dir).length (sortedGlob mask_dir).length)
        (sortedGlob img_dir).length := by
  have hmlen : (masksList (MaskSpec.dirPath mask_dir : MaskSpec V)
      (sortedGlob img_dir).length).length = (sortedGlob mask_dir).length := by
    simp [masksList]
  have hk2 : 0 < min (sortedGlob img_dir).length
      (masksList (MaskSpec.dirPath mask_dir : MaskSpec V)
        (sortedGlob img_dir).length).length := by
    rw [hmlen]; exact hk
  have hok := csf_mask_intersection_ok imgOf segOf vox img_dir
    (MaskSpec.dirPath mask_dir) prob hp hk2
  have hev := csf_mask_intersection_events imgOf segOf vox img_dir
    (MaskSpec.dirPath mask_dir) prob hp
  refine ⟨?_, ?_, ?_⟩
  · rw [hok]
    congr 1
    funext v
    rw [okOutput, hok]
  · rw [hev, cohortLoop_imagesRead, map_fst_zip_take, List.length_take, hmlen]
    omega
  · rw [hev, cohortLoop_totals, List.length_zip, hmlen]

/-- Witness for the amended C9: two images, one mask file — one pair is
processed without error and both counts appear as stated. -/
theorem csf_mask_intersection_mismatch_witness :
    (imagesRead (csf_mask_intersection imgZero segZero vox1 ["a.nii", "b.nii"]
        (MaskSpec.dirPath ["m.nii"]) 1).1).length =
      min (sortedGlob ["a.nii", "b.nii"]).length (sortedGlob ["m.nii"]).length ∧
    loggedTotals (csf_mask_intersection imgZero segZero vox1 ["a.nii", "b.nii"]
        (MaskSpec.dirPath ["m.nii"]) 1).1 =
      List.replicate (min (sortedGlob ["a.nii", "b.nii"]).length
        (sortedGlob ["m.nii"]).length) (sortedGlob ["a.nii", "b.nii"]).length :=
  ⟨(csf_mask_intersection_mismatch imgZero segZero vox1 ["a.nii", "b.nii"] ["m.nii"] 1
      (by norm_num) (by decide) (by decide)).2.1,
   (csf_mask_intersection_mismatch imgZero segZero vox1 ["a.nii", "b.nii"] ["m.nii"] 1
      (by norm_num) (by decide) (by decide)).2.2⟩
